import Mathlib

/-!
Shallow embedding of the satellite-collision-avoidance control loop:
the table-driven replay policy of `src/agent.py` and the simulation loop of
`src/space_navigator/simulator/simulator.py`.

Epoch values (mjd2000 scalars) and all other numeric quantities are modelled
as exact rationals.  The external physics collaborator (pykep environment) is
modelled as an abstract port `EnvPort` over an opaque state type, exactly the
set of operations the loop invokes on `self.env`.  Telemetry calls are
recorded as a trace of `Event`s carrying the same data the source passes to
the logger.  Python exceptions reachable inside the loop body (the
`iteration % self.update_r_p_step` expression of the visualize branch) are
modelled with `Except PyError`.
-/

namespace SpaceNav

/-- The environment state dict handed to `get_action`
(`src/agent.py` docstrings): satellite and debris coordinates, the
trajectory-deviation coefficient, the epoch the snapshot was computed for,
and the remaining fuel.  Only `epoch` is read by the agents. -/
structure Snap where
  coord_st : List ℚ
  coord_debr : List ℚ
  trajectory_deviation_coef : ℚ
  epoch : ℚ
  fuel : ℚ
deriving DecidableEq

/-- A snapshot carrying only an epoch, used to drive the agents in tests. -/
def mkSnap (e : ℚ) : Snap :=
  ⟨[], [], 0, e, 0⟩

/-- The 5-component action vector
`np.array([dVx, dVy, dVz, epoch, time_to_req])` of `src/agent.py`. -/
structure ActionRec where
  dVx : ℚ
  dVy : ℚ
  dVz : ℚ
  epoch : ℚ
  time_to_req : ℚ
deriving DecidableEq

/-- One row of the action table: `epoch, dVx, dVy, dVz`
(`self.table` of `TableAgent`, after the index column is dropped). -/
structure Row where
  epoch : ℚ
  dVx : ℚ
  dVy : ℚ
  dVz : ℚ
deriving DecidableEq

/-- The default action `np.array([0, 0, 0, epoch, 0])` built at
`src/agent.py` line 42. -/
def default_action (epoch : ℚ) : ActionRec :=
  ⟨0, 0, 0, epoch, 0⟩

namespace TableAgent

/-- `TableAgent.get_action` (`src/agent.py` lines 23-49).  The mutable
`self.table` is threaded explicitly: the result pairs the returned action
with the table after the call.  `if self.table.size:` is the nonempty test;
`if epoch >= self.table[0, 0]:` fires the first row, building
`np.hstack([self.table[0, 1:], epoch, 0])` and deleting row 0. -/
def get_action (table : List Row) (state : Snap) : ActionRec × List Row :=
  let epoch := state.epoch
  match table with
  | [] => (default_action epoch, [])
  | r :: rest =>
    if r.epoch ≤ epoch then
      (⟨r.dVx, r.dVy, r.dVz, epoch, 0⟩, rest)
    else
      (default_action epoch, r :: rest)

/-- Poll the agent once per epoch in the given list, threading the table
through; returns the sequence of actions and the final table. -/
def poll_list : List Row → List ℚ → List ActionRec × List Row
  | table, [] => ([], table)
  | table, e :: es =>
    let p := get_action table (mkSnap e)
    let q := poll_list p.2 es
    (p.1 :: q.1, q.2)

/-- Number of calls in the poll sequence on which the agent fired
(i.e. removed a row from the table). -/
def fires_in : List Row → List ℚ → ℕ
  | _, [] => 0
  | table, e :: es =>
    let t' := (get_action table (mkSnap e)).2
    (if t'.length < table.length then 1 else 0) + fires_in t' es

end TableAgent

namespace Agent

/-- `Agent.get_action` (`src/agent.py` lines 62-83): zero deltas, the state
epoch, and `time_to_req = 0.001`. -/
def get_action (state : Snap) : ActionRec :=
  ⟨0, 0, 0, state.epoch, 1 / 1000⟩

end Agent

/-- Calls and telemetry emitted by one run of the simulation loop, in
program order, carrying the data the source passes to each callee
(`src/space_navigator/simulator/simulator.py`). -/
inductive Event where
  | propagate (epoch : ℚ)
  | get_state_call
  | get_action_call (a : ActionRec)
  | act_call (a : ActionRec)
  | log_bad_action (dVx dVy dVz : ℚ) (msg : String)
  | log_reward_action (iter : ℕ) (reward : ℚ) (a : ActionRec)
  | log_iteration (iter : ℕ) (epoch : ℚ)
  | log_protected (epoch : ℚ)
  | log_debris (epoch : ℚ)
  | plot_protected
  | plot_debris
  | plot_earth
  | plot_prob_fuel_reward
  | pause_and_clear
  | plot_iteration_text
deriving DecidableEq

/-- Python exceptions reachable in the loop body: `iteration % None` raises
TypeError; `iteration % 0` raises ZeroDivisionError. -/
inductive PyError where
  | typeError
  | zeroDivisionError
deriving DecidableEq

/-- The abstract environment port: exactly the operations the simulator
invokes on `self.env` (simulator.py).  `σ` is the opaque physics state;
`act` returns the new state paired with the optional failure description. -/
structure EnvPort (σ : Type) where
  propagate_forward : σ → ℚ → Option ℤ → σ
  get_next_action : σ → ℚ
  get_state : σ → Snap
  act : σ → ActionRec → σ × Option String
  get_reward : σ → ℚ
  total_collision_probability : σ → ℚ
  get_fuel_consumption : σ → ℚ
  get_trajectory_deviation : σ → ℚ
  reward : σ → ℚ
  reward_components : σ → ℚ × ℚ × ℚ
  last_r_p_update : σ → ℚ
  init_params_start_time : σ → ℚ
  init_params_end_time : σ → ℚ

/-- The visualization series `self.time_arr`, `self.prob_arr`,
`self.fuel_cons_arr`, `self.reward_arr` (simulator.py lines 164-167,
205-209). -/
structure VisArrays where
  time_arr : List ℚ
  prob_arr : List ℚ
  fuel_cons_arr : List ℚ
  reward_arr : List ℚ
deriving DecidableEq

/-- The mutable state of one run of the while loop: environment state,
agent state, `self.curr_time`, the `iteration` counter, the trace of calls
and telemetry so far, and the optional visualization arrays. -/
structure LoopSt (σ α : Type) where
  env : σ
  agent : α
  curr_time : ℚ
  iteration : ℕ
  trace : List Event
  vis : Option VisArrays
deriving DecidableEq

/-- Tail of the loop body after the decision check (simulator.py lines
192-221): per-iteration telemetry, the visualize branch with its
`iteration % self.update_r_p_step == 0` test, and the clock advance
`self.curr_time = pk.epoch(self.curr_time.mjd2000 + step)` plus
`iteration += 1`. -/
def iter_tail {σ α : Type} (E : EnvPort σ) (visualize : Bool) (urp : Option ℤ)
    (step : ℚ) (env : σ) (agent : α) (curr : ℚ) (iteration : ℕ)
    (trace : List Event) (vis : Option VisArrays) :
    Except PyError (LoopSt σ α) :=
  let trace1 := trace ++
    [Event.log_iteration iteration curr, Event.log_protected curr,
     Event.log_debris curr]
  if visualize then
    let trace2 := trace1 ++
      [Event.plot_protected, Event.plot_debris, Event.plot_earth]
    let p := E.total_collision_probability env
    let f := E.get_fuel_consumption env
    let r := E.reward env
    match urp with
    | none => Except.error PyError.typeError
    | some u =>
      if u = 0 then Except.error PyError.zeroDivisionError
      else
        let vis' :=
          if (iteration : ℤ) % u = 0 then
            match vis with
            | some va =>
              some ⟨va.time_arr ++ [curr], va.prob_arr ++ [p],
                    va.fuel_cons_arr ++ [f], va.reward_arr ++ [r]⟩
            | none => none
          else vis
        Except.ok
          ⟨env, agent, curr + step, iteration + 1,
           trace2 ++ [Event.plot_prob_fuel_reward, Event.pause_and_clear,
                      Event.plot_iteration_text],
           vis'⟩
  else
    Except.ok ⟨env, agent, curr + step, iteration + 1, trace1, vis⟩

/-- The warning emitted by `self.log_bad_action(err, action)` when `act`
returned a failure description (simulator.py lines 187-188, 248-250),
carrying the three deltas and the reason string; nothing when `act`
succeeded. -/
def bad_log (action : ActionRec) : Option String → List Event
  | some msg =>
    [Event.log_bad_action action.dVx action.dVy action.dVz msg]
  | none => []

/-- One iteration of the while loop (simulator.py lines 178-221):
propagate, decision check against `self.env.get_next_action()`, and, when
due, the poll (`get_state`, agent `get_action`, `get_reward`, `act`, the
bad-action warning on failure, and `log_reward_action`), then the common
tail. -/
def run_iteration {σ α : Type} (E : EnvPort σ)
    (agentF : α → Snap → α × ActionRec) (visualize : Bool) (urp : Option ℤ)
    (step : ℚ) (st : LoopSt σ α) : Except PyError (LoopSt σ α) :=
  let env1 := E.propagate_forward st.env st.curr_time urp
  let trace1 := st.trace ++ [Event.propagate st.curr_time]
  if E.get_next_action env1 ≤ st.curr_time then
    let s := E.get_state env1
    let pa := agentF st.agent s
    let action := pa.2
    let r := E.get_reward env1
    let ae := E.act env1 action
    let trace2 := trace1 ++
      [Event.get_state_call, Event.get_action_call action,
       Event.act_call action]
    let trace3 := trace2 ++ bad_log action ae.2
    let trace4 := trace3 ++ [Event.log_reward_action st.iteration r action]
    iter_tail E visualize urp step ae.1 pa.1 st.curr_time st.iteration
      trace4 st.vis
  else
    iter_tail E visualize urp step env1 st.agent st.curr_time st.iteration
      trace1 st.vis

/-- Outcome of running the loop with a given amount of fuel:
`finished reward final` models normal exit through the loop guard followed
by the post-loop final position log and `return self.env.get_reward()`;
`raised` models a Python exception escaping the body; `out_of_fuel` means
the fuel bound was insufficient to reach the guard failure. -/
inductive RunResult (σ α : Type) where
  | finished (reward : ℚ) (final : LoopSt σ α)
  | raised (e : PyError) (st : LoopSt σ α)
  | out_of_fuel (st : LoopSt σ α)
deriving DecidableEq

/-- The while loop of `Simulator.run` (simulator.py lines 178-231), made
structural by a fuel parameter: while `self.curr_time.mjd2000 <=
self.end_time.mjd2000` run one iteration; on exit perform the single
post-loop `self.log_protected_position()` and return
`self.env.get_reward()`. -/
def run_loop {σ α : Type} (E : EnvPort σ)
    (agentF : α → Snap → α × ActionRec) (visualize : Bool) (urp : Option ℤ)
    (end_time step : ℚ) : ℕ → LoopSt σ α → RunResult σ α
  | fuel, st =>
    if st.curr_time ≤ end_time then
      match fuel with
      | 0 => RunResult.out_of_fuel st
      | fuel' + 1 =>
        match run_iteration E agentF visualize urp step st with
        | Except.error e => RunResult.raised e st
        | Except.ok st' =>
          run_loop E agentF visualize urp end_time step fuel' st'
    else
      RunResult.finished (E.get_reward st.env)
        { st with trace := st.trace ++ [Event.log_protected st.curr_time] }

/-- The session object built by `Simulator.__init__` (simulator.py lines
122-147): the constructor copies `start_time` and `end_time` out of
`self.env.init_params`, sets `curr_time` to the start, and stores the
cadence and print flag.  It performs no validation of any kind. -/
structure Simulator (σ α : Type) where
  agent : α
  env : σ
  start_time : ℚ
  end_time : ℚ
  curr_time : ℚ
  print_out : Bool
  update_r_p_step : Option ℤ
deriving DecidableEq

/-- `Simulator.__init__` (simulator.py lines 122-147): pure field copies,
no checks, no failure path. -/
def Simulator.init {σ α : Type} (E : EnvPort σ) (agent : α) (env : σ)
    (urp : Option ℤ) (print_out : Bool) : Simulator σ α :=
  { agent := agent
    env := env
    start_time := E.init_params_start_time env
    end_time := E.init_params_end_time env
    curr_time := E.init_params_start_time env
    print_out := print_out
    update_r_p_step := urp }

/-- `Simulator.run` (simulator.py lines 149-231): initializes the
visualization arrays when `visualize`, zeroes the `iteration` counter, and
enters the while loop. -/
def Simulator.run {σ α : Type} (E : EnvPort σ)
    (agentF : α → Snap → α × ActionRec) (sim : Simulator σ α) (step : ℚ)
    (visualize : Bool) (fuel : ℕ) : RunResult σ α :=
  let vis0 : Option VisArrays :=
    if visualize then
      some ⟨[sim.curr_time], [E.total_collision_probability sim.env],
            [E.get_fuel_consumption sim.env], [E.reward sim.env]⟩
    else none
  run_loop E agentF visualize sim.update_r_p_step sim.end_time step fuel
    ⟨sim.env, sim.agent, sim.curr_time, 0, [], vis0⟩

/-- Number of loop iterations executed by the source loop in exact
arithmetic: the count of n with `curr + n * step <= end_time`, i.e.
`floor((end_time - curr) / step) + 1` when the guard holds at entry and
`step > 0`, and `0` when the guard fails at entry. -/
def expected_iters (curr end_time step : ℚ) : ℕ :=
  if curr ≤ end_time then (⌊(end_time - curr) / step⌋ + 1).toNat else 0

/-- Count of `act` calls in a trace. -/
def count_act_calls (tr : List Event) : ℕ :=
  tr.countP (fun e => match e with | Event.act_call _ => true | _ => false)

/-- Count of `get_state` calls in a trace. -/
def count_get_state_calls (tr : List Event) : ℕ :=
  tr.countP (fun e => match e with | Event.get_state_call => true | _ => false)

/-- Count of agent `get_action` calls in a trace. -/
def count_get_action_calls (tr : List Event) : ℕ :=
  tr.countP
    (fun e => match e with | Event.get_action_call _ => true | _ => false)

/-- Count of per-iteration `log_iteration` telemetry records in a trace. -/
def count_log_iterations (tr : List Event) : ℕ :=
  tr.countP
    (fun e => match e with | Event.log_iteration _ _ => true | _ => false)

/-- Count of `propagate_forward` calls in a trace. -/
def count_propagates (tr : List Event) : ℕ :=
  tr.countP (fun e => match e with | Event.propagate _ => true | _ => false)

/-- Count of bad-action warnings in a trace. -/
def count_bad_actions (tr : List Event) : ℕ :=
  tr.countP
    (fun e => match e with | Event.log_bad_action _ _ _ _ => true | _ => false)

/-- A trivial concrete environment over `Unit` physics state, used to
evaluate the loop on concrete inputs. -/
def unitEnv : EnvPort Unit :=
  { propagate_forward := fun _ _ _ => ()
    get_next_action := fun _ => 0
    get_state := fun _ => mkSnap 0
    act := fun e _ => (e, none)
    get_reward := fun _ => 0
    total_collision_probability := fun _ => 0
    get_fuel_consumption := fun _ => 0
    get_trajectory_deviation := fun _ => 0
    reward := fun _ => 0
    reward_components := fun _ => (0, 0, 0)
    last_r_p_update := fun _ => 0
    init_params_start_time := fun _ => 0
    init_params_end_time := fun _ => 1 }

/-- The trivial environment with an `act` that always rejects. -/
def rejectEnv : EnvPort Unit :=
  { unitEnv with act := fun e _ => (e, some "fuel budget exceeded") }

/-- The trivial environment with `init_params` declaring
`end_time < start_time`. -/
def backwardsEnv : EnvPort Unit :=
  { unitEnv with
    init_params_start_time := fun _ => 1
    init_params_end_time := fun _ => 0 }

/-- A stateless agent returning the default action, used to evaluate the
loop on concrete inputs. -/
def unitAgent : Unit → Snap → Unit × ActionRec :=
  fun _ s => ((), default_action s.epoch)

/-- A concrete initial loop state at epoch 0. -/
def st0 : LoopSt Unit Unit :=
  ⟨(), (), 0, 0, [], none⟩

/- ### Basic lemmas about the table-driven policy -/

theorem get_action_nil (s : Snap) :
    TableAgent.get_action [] s = (default_action s.epoch, []) := rfl

theorem get_action_fire (s : Snap) (r : Row) (rest : List Row)
    (h : r.epoch ≤ s.epoch) :
    TableAgent.get_action (r :: rest) s =
      (⟨r.dVx, r.dVy, r.dVz, s.epoch, 0⟩, rest) := by
  simp [TableAgent.get_action, h]

theorem get_action_hold (s : Snap) (r : Row) (rest : List Row)
    (h : s.epoch < r.epoch) :
    TableAgent.get_action (r :: rest) s =
      (default_action s.epoch, r :: rest) := by
  simp [TableAgent.get_action, not_le.mpr h]

theorem fires_in_nil (polls : List ℚ) : TableAgent.fires_in [] polls = 0 := by
  induction polls with
  | nil => rfl
  | cons e es ih => simp [TableAgent.fires_in, TableAgent.get_action, ih]

/-- C1: for a non-empty table whose first row is due
(`row.epoch <= state.epoch`), `TableAgent.get_action` returns the action
built from that row's deltas tagged with the current epoch and
`time_to_next_request = 0` and removes the row; when the table is empty or
the first row is not yet due it returns the no-op `(0, 0, 0, state.epoch, 0)`
and leaves the table alone.  On the single-row table `[(6600, 1, 0, 0)]`
polled at epochs 5999.9, 6600, 6600.0001 the three calls return no-op, then
fire with dVx = 1, then no-op. -/
theorem c1_table_agent_get_action (s : Snap) (r : Row) (rest : List Row) :
    (r.epoch ≤ s.epoch →
      TableAgent.get_action (r :: rest) s =
        (⟨r.dVx, r.dVy, r.dVz, s.epoch, 0⟩, rest)) ∧
    (s.epoch < r.epoch →
      TableAgent.get_action (r :: rest) s =
        (⟨0, 0, 0, s.epoch, 0⟩, r :: rest)) ∧
    TableAgent.get_action [] s = (⟨0, 0, 0, s.epoch, 0⟩, []) ∧
    TableAgent.poll_list [⟨6600, 1, 0, 0⟩] [5999.9, 6600, 6600.0001] =
      ([⟨0, 0, 0, 5999.9, 0⟩, ⟨1, 0, 0, 6600, 0⟩, ⟨0, 0, 0, 6600.0001, 0⟩],
       []) := by
  refine ⟨fun h => get_action_fire s r rest h,
          fun h => get_action_hold s r rest h,
          rfl, ?_⟩
  norm_num [TableAgent.poll_list, TableAgent.get_action, mkSnap,
    default_action]

/-- Witness for C1 at a concrete input: the fire case on table
`[(3, 1, 2, 3)]` at state epoch 5. -/
theorem c1_witness :
    TableAgent.get_action [⟨3, 1, 2, 3⟩] (mkSnap 5) = (⟨1, 2, 3, 5, 0⟩, []) :=
  (c1_table_agent_get_action (mkSnap 5) ⟨3, 1, 2, 3⟩ []).1 (by decide)

theorem fires_in_cons (table : List Row) (e : ℚ) (es : List ℚ) :
    TableAgent.fires_in table (e :: es) =
      (if ((TableAgent.get_action table (mkSnap e)).2).length < table.length
        then 1 else 0) +
      TableAgent.fires_in ((TableAgent.get_action table (mkSnap e)).2) es :=
  rfl

theorem fires_in_fire (r : Row) (rest : List Row) (e : ℚ) (es : List ℚ)
    (h : r.epoch ≤ e) :
    TableAgent.fires_in (r :: rest) (e :: es) =
      1 + TableAgent.fires_in rest es := by
  rw [fires_in_cons, get_action_fire (mkSnap e) r rest (by simpa [mkSnap])]
  simp [Nat.lt_succ_self]

theorem fires_in_hold (r : Row) (rest : List Row) (e : ℚ) (es : List ℚ)
    (h : e < r.epoch) :
    TableAgent.fires_in (r :: rest) (e :: es) =
      TableAgent.fires_in (r :: rest) es := by
  rw [fires_in_cons, get_action_hold (mkSnap e) r rest (by simpa [mkSnap])]
  simp

theorem fires_in_le (polls : List ℚ) :
    ∀ table : List Row, TableAgent.fires_in table polls ≤ table.length := by
  induction polls with
  | nil => intro table; simp [TableAgent.fires_in]
  | cons e es ih =>
    intro table
    match table with
    | [] => simp [fires_in_nil]
    | r :: rest =>
      by_cases h : r.epoch ≤ e
      · rw [fires_in_fire r rest e es h]
        have := ih rest
        simp only [List.length_cons]
        omega
      · rw [fires_in_hold r rest e es (not_le.mp h)]
        exact (ih (r :: rest)).trans (le_refl _)

theorem fires_in_all (m : ℚ) (polls : List ℚ) :
    ∀ table : List Row, (∀ r ∈ table, r.epoch ≤ m) →
      table.length ≤ (polls.filter (fun e => decide (m ≤ e))).length →
      TableAgent.fires_in table polls = table.length := by
  induction polls with
  | nil =>
    intro table _ hn
    simp only [List.filter_nil, List.length_nil, Nat.le_zero] at hn
    rw [List.length_eq_zero] at hn
    subst hn
    rfl
  | cons e es ih =>
    intro table hm hn
    match table with
    | [] => simp [fires_in_nil]
    | r :: rest =>
      by_cases h : r.epoch ≤ e
      · rw [fires_in_fire r rest e es h]
        have hrest : TableAgent.fires_in rest es = rest.length := by
          apply ih rest (fun x hx => hm x (List.mem_cons_of_mem r hx))
          have hle : ((e :: es).filter (fun x => decide (m ≤ x))).length ≤
              (es.filter (fun x => decide (m ≤ x))).length + 1 := by
            simp only [List.filter_cons]
            split <;> simp
          simp only [List.length_cons] at hn
          omega
        simp [hrest, Nat.add_comm]
      · have hlt : e < r.epoch := not_le.mp h
        have hem : ¬ (m ≤ e) :=
          not_le.mpr (lt_of_lt_of_le hlt (hm r (List.mem_cons_self r rest)))
        rw [fires_in_hold r rest e es hlt]
        apply ih (r :: rest) hm
        simpa [List.filter_cons, hem] using hn

/-- C2 as stated is false: the table `[(1,0,0,0), (2,0,0,0)]` has two rows
with strictly increasing epochs, and the call sequence `[5]` has state
epochs exceeding every row's epoch, yet the policy fires once, not twice
(a single call can fire at most one row). -/
theorem c2_counterexample :
    ((1 : ℚ) < 2) ∧ ((1 : ℚ) < 5 ∧ (2 : ℚ) < 5) ∧
    ([(⟨1, 0, 0, 0⟩ : Row), ⟨2, 0, 0, 0⟩].length = 2) ∧
    TableAgent.fires_in [⟨1, 0, 0, 0⟩, ⟨2, 0, 0, 0⟩] [5] = 1 ∧
    (1 : ℕ) ≠ 2 := by
  decide

/-- C2 amended: for a table all of whose rows are due by epoch `m`, a call
sequence containing at least `N = table.length` polls at epochs `>= m`
makes the policy fire exactly `N` times; in any call sequence it fires at
most `N` times; every single call either returns the no-op with the table
unchanged or removes exactly one row; and after the rows due at an epoch
are exhausted (the first remaining row is not yet due), two consecutive
calls at that same epoch both return the no-op with the table unchanged. -/
theorem c2_fire_count (table : List Row) (polls : List ℚ) (m : ℚ) :
    ((∀ r ∈ table, r.epoch ≤ m) →
      table.length ≤ (polls.filter (fun e => decide (m ≤ e))).length →
      TableAgent.fires_in table polls = table.length) ∧
    TableAgent.fires_in table polls ≤ table.length ∧
    (∀ (t : List Row) (e : ℚ),
      TableAgent.get_action t (mkSnap e) = (default_action e, t) ∨
      ((TableAgent.get_action t (mkSnap e)).2).length + 1 = t.length) ∧
    (∀ (r : Row) (rest : List Row) (e : ℚ), e < r.epoch →
      TableAgent.get_action (r :: rest) (mkSnap e) =
        (default_action e, r :: rest) ∧
      TableAgent.get_action
          ((TableAgent.get_action (r :: rest) (mkSnap e)).2) (mkSnap e) =
        (default_action e, r :: rest)) := by
  refine ⟨fun hm hn => fires_in_all m polls table hm hn, fires_in_le polls table,
    ?_, ?_⟩
  · intro t e
    match t with
    | [] => exact Or.inl (get_action_nil (mkSnap e))
    | r :: rest =>
      by_cases h : r.epoch ≤ e
      · right
        simp [TableAgent.get_action, mkSnap, h]
      · left
        simp [TableAgent.get_action, mkSnap, default_action, h]
  · intro r rest e h
    have h' : ¬ r.epoch ≤ e := not_le.mpr h
    constructor
    · simp [TableAgent.get_action, mkSnap, default_action, h']
    · simp [TableAgent.get_action, mkSnap, default_action, h']

/-- Witness for C2 at a concrete input: one-row table, two polls past the
row's epoch, exactly one fire. -/
theorem c2_witness :
    TableAgent.fires_in [⟨6600, 1, 0, 0⟩] [7000, 7001] = 1 :=
  (c2_fire_count [⟨6600, 1, 0, 0⟩] [7000, 7001] 6600).1 (by decide) (by decide)

/-- C6 as stated is false for `Agent.get_action`: its no-op action carries
`time_to_req = 0.001` (`src/agent.py` line 80), not 0. -/
theorem c6_counterexample :
    Agent.get_action (mkSnap 0) = ⟨0, 0, 0, 0, 1 / 1000⟩ ∧
    (Agent.get_action (mkSnap 0)).time_to_req ≠ 0 := by
  refine ⟨rfl, ?_⟩
  norm_num [Agent.get_action, mkSnap]

/-- C6 amended: every no-op returned by `TableAgent.get_action` (the empty
table and not-yet-due branches) has all three deltas zero and
`time_to_next_request = 0`; `Agent.get_action` also returns zero deltas,
but tags `time_to_next_request = 0.001`, not 0. -/
theorem c6_noop_fields (s : Snap) (t : List Row) :
    ((default_action s.epoch).dVx = 0 ∧ (default_action s.epoch).dVy = 0 ∧
     (default_action s.epoch).dVz = 0 ∧
     (default_action s.epoch).time_to_req = 0) ∧
    (t = [] → TableAgent.get_action t s = (default_action s.epoch, t)) ∧
    (∀ r rest, t = r :: rest → s.epoch < r.epoch →
      TableAgent.get_action t s = (default_action s.epoch, t)) ∧
    Agent.get_action s = ⟨0, 0, 0, s.epoch, 1 / 1000⟩ := by
  refine ⟨⟨rfl, rfl, rfl, rfl⟩, ?_, ?_, rfl⟩
  · intro h
    subst h
    rfl
  · intro r rest h hlt
    subst h
    exact get_action_hold s r rest hlt

/-- Witness for C6 at a concrete input: the empty-table no-op. -/
theorem c6_witness :
    TableAgent.get_action [] (mkSnap 0) =
      (default_action (mkSnap 0).epoch, []) :=
  (c6_noop_fields (mkSnap 0) []).2.1 rfl

/-- C10 as stated is false: on the table `[(1, 0, 0, 0)]` polled at state
epoch 2, the returned action is value-equal to the no-op (the fired row's
deltas are all zero, the tag is the current epoch, `time_to_req = 0`), yet
the table is not unchanged — the row was removed. -/
theorem c10_counterexample :
    (TableAgent.get_action [⟨1, 0, 0, 0⟩] (mkSnap 2)).1 =
      default_action (mkSnap 2).epoch ∧
    (TableAgent.get_action [⟨1, 0, 0, 0⟩] (mkSnap 2)).2 ≠ [⟨1, 0, 0, 0⟩] := by
  decide

/-- C10 amended: `TableAgent.get_action` never writes the snapshot (the
embedding threads no snapshot out because the source mutates none), and the
table changes only in the fire branch: in the no-op branches (empty table,
or first row not yet due) the table is returned exactly unchanged, and when
the first row is due exactly that row is removed with the remaining rows
preserved unchanged and in order.  The claim's implication from the
returned value fails: a fired row whose deltas are all zero yields an
action value-equal to the no-op even though the table shrinks. -/
theorem c10_frame (s : Snap) (table : List Row) :
    (table = [] →
      TableAgent.get_action table s = (default_action s.epoch, table)) ∧
    (∀ r rest, table = r :: rest →
      (s.epoch < r.epoch →
        TableAgent.get_action table s = (default_action s.epoch, table)) ∧
      (r.epoch ≤ s.epoch →
        (TableAgent.get_action table s).2 = rest ∧
        (TableAgent.get_action table s).1 =
          ⟨r.dVx, r.dVy, r.dVz, s.epoch, 0⟩)) := by
  constructor
  · intro h
    subst h
    rfl
  · intro r rest h
    subst h
    constructor
    · intro hlt
      exact get_action_hold s r rest hlt
    · intro hle
      rw [get_action_fire s r rest hle]
      exact ⟨rfl, rfl⟩

/-- Witness for C10 at a concrete input: the not-yet-due hold case. -/
theorem c10_witness :
    TableAgent.get_action [⟨5, 1, 1, 1⟩] (mkSnap 0) =
      (default_action (mkSnap 0).epoch, [⟨5, 1, 1, 1⟩]) :=
  ((c10_frame (mkSnap 0) [⟨5, 1, 1, 1⟩]).2 ⟨5, 1, 1, 1⟩ [] rfl).1 (by decide)

/- ### Lemmas about the loop body -/

/-- The per-iteration telemetry events common to both tail branches. -/
def tail_base (iteration : ℕ) (curr : ℚ) : List Event :=
  [Event.log_iteration iteration curr, Event.log_protected curr,
   Event.log_debris curr]

/-- The events of the visualize branch of the tail. -/
def tail_plots : List Event :=
  [Event.plot_protected, Event.plot_debris, Event.plot_earth,
   Event.plot_prob_fuel_reward, Event.pause_and_clear,
   Event.plot_iteration_text]

theorem iter_tail_ok {σ α : Type} (E : EnvPort σ) (visualize : Bool)
    (urp : Option ℤ) (step : ℚ) (env : σ) (agent : α) (curr : ℚ)
    (iteration : ℕ) (trace : List Event) (vis : Option VisArrays)
    (st' : LoopSt σ α)
    (h : iter_tail E visualize urp step env agent curr iteration trace vis =
      Except.ok st') :
    st'.env = env ∧ st'.agent = agent ∧ st'.curr_time = curr + step ∧
    st'.iteration = iteration + 1 ∧
    (st'.trace = trace ++ tail_base iteration curr ∨
     st'.trace = trace ++ (tail_base iteration curr ++ tail_plots)) := by
  cases visualize with
  | false =>
    simp only [iter_tail, Bool.false_eq_true, if_false,
      Except.ok.injEq] at h
    subst h
    exact ⟨rfl, rfl, rfl, rfl, Or.inl rfl⟩
  | true =>
    simp only [iter_tail, if_true] at h
    cases urp with
    | none => exact absurd h (by simp)
    | some u =>
      by_cases hu : u = 0
      · simp [hu] at h
      · simp only [hu, if_false, Except.ok.injEq] at h
        subst h
        refine ⟨rfl, rfl, rfl, rfl, Or.inr ?_⟩
        simp [tail_base, tail_plots]

/-- When the decision check fails (`curr_time <` the environment-declared
next-action epoch), the iteration neither polls nor acts: the agent state
is untouched and the only new events are the propagate call and
telemetry. -/
theorem run_iteration_skip {σ α : Type} (E : EnvPort σ)
    (agentF : α → Snap → α × ActionRec) (visualize : Bool) (urp : Option ℤ)
    (step : ℚ) (st st' : LoopSt σ α)
    (hgate : st.curr_time <
      E.get_next_action (E.propagate_forward st.env st.curr_time urp))
    (h : run_iteration E agentF visualize urp step st = Except.ok st') :
    st'.env = E.propagate_forward st.env st.curr_time urp ∧
    st'.agent = st.agent ∧ st'.curr_time = st.curr_time + step ∧
    st'.iteration = st.iteration + 1 ∧
    (st'.trace = st.trace ++
        (Event.propagate st.curr_time ::
          tail_base st.iteration st.curr_time) ∨
     st'.trace = st.trace ++
        (Event.propagate st.curr_time ::
          (tail_base st.iteration st.curr_time ++ tail_plots))) := by
  simp only [run_iteration, not_le.mpr hgate, if_false] at h
  obtain ⟨h1, h2, h3, h4, h5⟩ := iter_tail_ok E visualize urp step _ _ _ _ _ _
    st' h
  refine ⟨h1, h2, h3, h4, ?_⟩
  rcases h5 with h5 | h5 <;> [left; right] <;> simp [h5]

/-- When the decision check passes, the iteration polls the policy and
submits the action: the new events are the propagate call, the poll calls,
the bad-action warning exactly when `act` rejected, the reward/action log,
and telemetry. -/
theorem run_iteration_poll {σ α : Type} (E : EnvPort σ)
    (agentF : α → Snap → α × ActionRec) (visualize : Bool) (urp : Option ℤ)
    (step : ℚ) (st st' : LoopSt σ α)
    (hgate : E.get_next_action (E.propagate_forward st.env st.curr_time urp) ≤
      st.curr_time)
    (h : run_iteration E agentF visualize urp step st = Except.ok st') :
    st'.env = (E.act (E.propagate_forward st.env st.curr_time urp)
      (agentF st.agent
        (E.get_state (E.propagate_forward st.env st.curr_time urp))).2).1 ∧
    st'.agent = (agentF st.agent
      (E.get_state (E.propagate_forward st.env st.curr_time urp))).1 ∧
    st'.curr_time = st.curr_time + step ∧
    st'.iteration = st.iteration + 1 ∧
    ∃ tail,
      (tail = tail_base st.iteration st.curr_time ∨
       tail = tail_base st.iteration st.curr_time ++ tail_plots) ∧
      st'.trace = st.trace ++
        (Event.propagate st.curr_time :: Event.get_state_call ::
          Event.get_action_call (agentF st.agent
            (E.get_state (E.propagate_forward st.env st.curr_time urp))).2 ::
          Event.act_call (agentF st.agent
            (E.get_state (E.propagate_forward st.env st.curr_time urp))).2 ::
          (bad_log (agentF st.agent
              (E.get_state (E.propagate_forward st.env st.curr_time urp))).2
            (E.act (E.propagate_forward st.env st.curr_time urp)
              (agentF st.agent (E.get_state
                (E.propagate_forward st.env st.curr_time urp))).2).2 ++
           Event.log_reward_action st.iteration
             (E.get_reward (E.propagate_forward st.env st.curr_time urp))
             (agentF st.agent (E.get_state
               (E.propagate_forward st.env st.curr_time urp))).2 :: tail)) := by
  simp only [run_iteration, hgate, if_true] at h
  obtain ⟨h1, h2, h3, h4, h5⟩ := iter_tail_ok E visualize urp step _ _ _ _ _ _
    st' h
  refine ⟨h1, h2, h3, h4, ?_⟩
  rcases h5 with h5 | h5
  · exact ⟨tail_base st.iteration st.curr_time, Or.inl rfl, by simp [h5]⟩
  · exact ⟨tail_base st.iteration st.curr_time ++ tail_plots, Or.inr rfl,
      by simp [h5]⟩

/-- With visualization off the tail always succeeds, appending exactly the
telemetry events and advancing the clock and the iteration counter. -/
theorem iter_tail_novis {σ α : Type} (E : EnvPort σ) (urp : Option ℤ)
    (step : ℚ) (env : σ) (agent : α) (curr : ℚ) (iteration : ℕ)
    (trace : List Event) (vis : Option VisArrays) :
    iter_tail E false urp step env agent curr iteration trace vis =
      Except.ok ⟨env, agent, curr + step, iteration + 1,
        trace ++ tail_base iteration curr, vis⟩ :=
  rfl

/-- With visualization off the loop body never raises. -/
theorem run_iteration_novis {σ α : Type} (E : EnvPort σ)
    (agentF : α → Snap → α × ActionRec) (urp : Option ℤ) (step : ℚ)
    (st : LoopSt σ α) :
    ∃ st', run_iteration E agentF false urp step st = Except.ok st' := by
  simp only [run_iteration]
  by_cases hgate : E.get_next_action
      (E.propagate_forward st.env st.curr_time urp) ≤ st.curr_time
  · rw [if_pos hgate, iter_tail_novis]
    exact ⟨_, rfl⟩
  · rw [if_neg hgate, iter_tail_novis]
    exact ⟨_, rfl⟩

/-- C3: in every iteration of the loop, the `act` call (and likewise the
`get_state` and agent `get_action` calls) happens exactly when
`curr_time >= get_next_action`; when `curr_time < get_next_action` the
iteration leaves the agent untouched and goes straight to the telemetry
logging and the clock advance. -/
theorem c3_decision_gate {σ α : Type} (E : EnvPort σ)
    (agentF : α → Snap → α × ActionRec) (visualize : Bool) (urp : Option ℤ)
    (step : ℚ) (st st' : LoopSt σ α)
    (h : run_iteration E agentF visualize urp step st = Except.ok st') :
    (count_act_calls st'.trace = count_act_calls st.trace +
      (if E.get_next_action (E.propagate_forward st.env st.curr_time urp) ≤
          st.curr_time then 1 else 0)) ∧
    (count_get_state_calls st'.trace = count_get_state_calls st.trace +
      (if E.get_next_action (E.propagate_forward st.env st.curr_time urp) ≤
          st.curr_time then 1 else 0)) ∧
    (count_get_action_calls st'.trace = count_get_action_calls st.trace +
      (if E.get_next_action (E.propagate_forward st.env st.curr_time urp) ≤
          st.curr_time then 1 else 0)) ∧
    (st.curr_time <
        E.get_next_action (E.propagate_forward st.env st.curr_time urp) →
      st'.agent = st.agent ∧
      count_log_iterations st'.trace = count_log_iterations st.trace + 1 ∧
      st'.curr_time = st.curr_time + step ∧
      st'.iteration = st.iteration + 1) := by
  by_cases hgate : E.get_next_action
      (E.propagate_forward st.env st.curr_time urp) ≤ st.curr_time
  · obtain ⟨h1, h2, h3, h4, tail, htail, htr⟩ :=
      run_iteration_poll E agentF visualize urp step st st' hgate h
    rcases hae : (E.act (E.propagate_forward st.env st.curr_time urp)
        (agentF st.agent (E.get_state
          (E.propagate_forward st.env st.curr_time urp))).2).2
        with _ | msg <;>
      rw [hae] at htr <;>
      rcases htail with ht | ht <;> subst ht <;>
      refine ⟨?_, ?_, ?_, fun hlt => absurd hgate (not_le.mpr hlt)⟩ <;>
      simp [count_act_calls, count_get_state_calls, count_get_action_calls,
        htr, hgate, List.countP_append, List.countP_cons, bad_log,
        tail_base, tail_plots]
  · obtain ⟨h1, h2, h3, h4, htr⟩ :=
      run_iteration_skip E agentF visualize urp step st st'
        (not_le.mp hgate) h
    refine ⟨?_, ?_, ?_, fun _ => ⟨h2, ?_, h3, h4⟩⟩ <;>
      rcases htr with ht | ht <;>
      simp [count_act_calls, count_get_state_calls, count_get_action_calls,
        count_log_iterations, ht, hgate, List.countP_append,
        List.countP_cons, tail_base, tail_plots]

/-- Witness for C3 at a concrete input: the trivial environment always
declares epoch 0 due, so the single iteration performs exactly one `act`
call. -/
theorem c3_witness :
    (count_act_calls (LoopSt.trace
        ⟨(), (), 1, 1,
         [Event.propagate 0, Event.get_state_call,
          Event.get_action_call (default_action 0),
          Event.act_call (default_action 0),
          Event.log_reward_action 0 0 (default_action 0),
          Event.log_iteration 0 0, Event.log_protected 0,
          Event.log_debris 0], none⟩) =
      count_act_calls st0.trace +
        (if unitEnv.get_next_action
            (unitEnv.propagate_forward st0.env st0.curr_time none) ≤
            st0.curr_time then 1 else 0)) ∧
    (count_get_state_calls (LoopSt.trace
        ⟨(), (), 1, 1,
         [Event.propagate 0, Event.get_state_call,
          Event.get_action_call (default_action 0),
          Event.act_call (default_action 0),
          Event.log_reward_action 0 0 (default_action 0),
          Event.log_iteration 0 0, Event.log_protected 0,
          Event.log_debris 0], none⟩) =
      count_get_state_calls st0.trace +
        (if unitEnv.get_next_action
            (unitEnv.propagate_forward st0.env st0.curr_time none) ≤
            st0.curr_time then 1 else 0)) ∧
    (count_get_action_calls (LoopSt.trace
        ⟨(), (), 1, 1,
         [Event.propagate 0, Event.get_state_call,
          Event.get_action_call (default_action 0),
          Event.act_call (default_action 0),
          Event.log_reward_action 0 0 (default_action 0),
          Event.log_iteration 0 0, Event.log_protected 0,
          Event.log_debris 0], none⟩) =
      count_get_action_calls st0.trace +
        (if unitEnv.get_next_action
            (unitEnv.propagate_forward st0.env st0.curr_time none) ≤
            st0.curr_time then 1 else 0)) ∧
    (st0.curr_time < unitEnv.get_next_action
        (unitEnv.propagate_forward st0.env st0.curr_time none) →
      LoopSt.agent (σ := Unit) (α := Unit)
          ⟨(), (), 1, 1,
           [Event.propagate 0, Event.get_state_call,
            Event.get_action_call (default_action 0),
            Event.act_call (default_action 0),
            Event.log_reward_action 0 0 (default_action 0),
            Event.log_iteration 0 0, Event.log_protected 0,
            Event.log_debris 0], none⟩ = st0.agent ∧
      count_log_iterations (LoopSt.trace
          ⟨(), (), 1, 1,
           [Event.propagate 0, Event.get_state_call,
            Event.get_action_call (default_action 0),
            Event.act_call (default_action 0),
            Event.log_reward_action 0 0 (default_action 0),
            Event.log_iteration 0 0, Event.log_protected 0,
            Event.log_debris 0], none⟩) =
        count_log_iterations st0.trace + 1 ∧
      LoopSt.curr_time (σ := Unit) (α := Unit)
          ⟨(), (), 1, 1,
           [Event.propagate 0, Event.get_state_call,
            Event.get_action_call (default_action 0),
            Event.act_call (default_action 0),
            Event.log_reward_action 0 0 (default_action 0),
            Event.log_iteration 0 0, Event.log_protected 0,
            Event.log_debris 0], none⟩ = st0.curr_time + 1 ∧
      LoopSt.iteration (σ := Unit) (α := Unit)
          ⟨(), (), 1, 1,
           [Event.propagate 0, Event.get_state_call,
            Event.get_action_call (default_action 0),
            Event.act_call (default_action 0),
            Event.log_reward_action 0 0 (default_action 0),
            Event.log_iteration 0 0, Event.log_protected 0,
            Event.log_debris 0], none⟩ = st0.iteration + 1) :=
  c3_decision_gate unitEnv unitAgent false none 1 st0
    ⟨(), (), 1, 1,
     [Event.propagate 0, Event.get_state_call,
      Event.get_action_call (default_action 0),
      Event.act_call (default_action 0),
      Event.log_reward_action 0 0 (default_action 0),
      Event.log_iteration 0 0, Event.log_protected 0,
      Event.log_debris 0], none⟩
    (by simp [run_iteration, iter_tail, unitEnv, unitAgent, st0, tail_base,
      default_action, mkSnap, bad_log])

/-- C4: when the environment's `act` returns a failure description the
iteration does not raise: it completes normally (`Except.ok`), logs a
warning carrying the rejected action's three deltas and the reason string,
and advances the clock and counters exactly as in the accepted case — the
iteration count and per-iteration telemetry count get the same `+ 1`
whether or not the action was rejected; the only trace difference is the
single warning entry. -/
theorem c4_rejected_action {σ α : Type} (E : EnvPort σ)
    (agentF : α → Snap → α × ActionRec) (urp : Option ℤ) (step : ℚ)
    (st : LoopSt σ α)
    (hgate : E.get_next_action (E.propagate_forward st.env st.curr_time urp) ≤
      st.curr_time) :
    ∃ st', run_iteration E agentF false urp step st = Except.ok st' ∧
      st'.iteration = st.iteration + 1 ∧
      st'.curr_time = st.curr_time + step ∧
      count_log_iterations st'.trace = count_log_iterations st.trace + 1 ∧
      count_propagates st'.trace = count_propagates st.trace + 1 ∧
      (∀ msg,
        (E.act (E.propagate_forward st.env st.curr_time urp)
          (agentF st.agent (E.get_state
            (E.propagate_forward st.env st.curr_time urp))).2).2 = some msg →
        Event.log_bad_action
            (agentF st.agent (E.get_state
              (E.propagate_forward st.env st.curr_time urp))).2.dVx
            (agentF st.agent (E.get_state
              (E.propagate_forward st.env st.curr_time urp))).2.dVy
            (agentF st.agent (E.get_state
              (E.propagate_forward st.env st.curr_time urp))).2.dVz
            msg ∈ st'.trace ∧
          count_bad_actions st'.trace = count_bad_actions st.trace + 1) ∧
      ((E.act (E.propagate_forward st.env st.curr_time urp)
          (agentF st.agent (E.get_state
            (E.propagate_forward st.env st.curr_time urp))).2).2 = none →
        count_bad_actions st'.trace = count_bad_actions st.trace) := by
  obtain ⟨st', hok⟩ := run_iteration_novis E agentF urp step st
  obtain ⟨h1, h2, h3, h4, tail, htail, htr⟩ :=
    run_iteration_poll E agentF false urp step st st' hgate hok
  refine ⟨st', hok, h4, h3, ?_, ?_, ?_, ?_⟩
  · rcases htail with ht | ht <;> subst ht <;>
      simp [count_log_iterations, htr, List.countP_append, List.countP_cons,
        tail_base, tail_plots, bad_log] <;>
      cases hae : (E.act (E.propagate_forward st.env st.curr_time urp)
        (agentF st.agent (E.get_state
          (E.propagate_forward st.env st.curr_time urp))).2).2 <;>
      simp [bad_log]
  · rcases htail with ht | ht <;> subst ht <;>
      simp [count_propagates, htr, List.countP_append, List.countP_cons,
        tail_base, tail_plots] <;>
      cases hae : (E.act (E.propagate_forward st.env st.curr_time urp)
        (agentF st.agent (E.get_state
          (E.propagate_forward st.env st.curr_time urp))).2).2 <;>
      simp [bad_log]
  · intro msg hmsg
    rw [hmsg] at htr
    constructor
    · rcases htail with ht | ht <;> subst ht <;> simp [htr, bad_log]
    · rcases htail with ht | ht <;> subst ht <;>
        simp [count_bad_actions, htr, List.countP_append, List.countP_cons,
          tail_base, tail_plots, bad_log]
  · intro hnone
    rw [hnone] at htr
    rcases htail with ht | ht <;> subst ht <;>
      simp [count_bad_actions, htr, List.countP_append, List.countP_cons,
        tail_base, tail_plots, bad_log]

/-- Witness for C4 at a concrete input: the always-rejecting environment at
epoch 0. -/
theorem c4_witness :
    ∃ st', run_iteration rejectEnv unitAgent false none 1 st0 =
        Except.ok st' ∧
      st'.iteration = st0.iteration + 1 ∧
      st'.curr_time = st0.curr_time + 1 ∧
      count_log_iterations st'.trace = count_log_iterations st0.trace + 1 ∧
      count_propagates st'.trace = count_propagates st0.trace + 1 ∧
      (∀ msg,
        (rejectEnv.act (rejectEnv.propagate_forward st0.env st0.curr_time none)
          (unitAgent st0.agent (rejectEnv.get_state
            (rejectEnv.propagate_forward st0.env st0.curr_time none))).2).2 =
            some msg →
        Event.log_bad_action
            (unitAgent st0.agent (rejectEnv.get_state
              (rejectEnv.propagate_forward st0.env st0.curr_time none))).2.dVx
            (unitAgent st0.agent (rejectEnv.get_state
              (rejectEnv.propagate_forward st0.env st0.curr_time none))).2.dVy
            (unitAgent st0.agent (rejectEnv.get_state
              (rejectEnv.propagate_forward st0.env st0.curr_time none))).2.dVz
            msg ∈ st'.trace ∧
          count_bad_actions st'.trace = count_bad_actions st0.trace + 1) ∧
      ((rejectEnv.act (rejectEnv.propagate_forward st0.env st0.curr_time none)
          (unitAgent st0.agent (rejectEnv.get_state
            (rejectEnv.propagate_forward st0.env st0.curr_time none))).2).2 =
            none →
        count_bad_actions st'.trace = count_bad_actions st0.trace) :=
  c4_rejected_action rejectEnv unitAgent none 1 st0
    (by simp [rejectEnv, unitEnv, st0])

/- ### Iteration counting -/

theorem expected_iters_of_le (curr end_time step : ℚ) (h : curr ≤ end_time) :
    expected_iters curr end_time step =
      (⌊(end_time - curr) / step⌋ + 1).toNat := by
  simp [expected_iters, h]

theorem expected_iters_of_gt (curr end_time step : ℚ)
    (h : ¬ curr ≤ end_time) : expected_iters curr end_time step = 0 := by
  simp [expected_iters, h]

theorem expected_iters_pos (curr end_time step : ℚ) (hstep : 0 < step)
    (h : curr ≤ end_time) : 1 ≤ expected_iters curr end_time step := by
  rw [expected_iters_of_le curr end_time step h]
  have h0 : (0 : ℤ) ≤ ⌊(end_time - curr) / step⌋ :=
    Int.floor_nonneg.mpr (div_nonneg (sub_nonneg.mpr h) hstep.le)
  omega

theorem expected_iters_step (curr end_time step : ℚ) (hstep : 0 < step)
    (h : curr ≤ end_time) :
    expected_iters curr end_time step =
      expected_iters (curr + step) end_time step + 1 := by
  have h0 : (0 : ℤ) ≤ ⌊(end_time - curr) / step⌋ :=
    Int.floor_nonneg.mpr (div_nonneg (sub_nonneg.mpr h) hstep.le)
  rw [expected_iters_of_le curr end_time step h]
  by_cases h2 : curr + step ≤ end_time
  · rw [expected_iters_of_le (curr + step) end_time step h2]
    have hx : (end_time - (curr + step)) / step =
        (end_time - curr) / step - 1 := by
      field_simp
      ring
    rw [hx, Int.floor_sub_one]
    omega
  · rw [expected_iters_of_gt (curr + step) end_time step h2]
    have hlt : end_time - curr < step := by
      have := not_le.mp h2
      linarith
    have hx : (end_time - curr) / step < 1 := (div_lt_one hstep).mpr hlt
    have hz : ⌊(end_time - curr) / step⌋ = 0 :=
      Int.floor_eq_zero_iff.mpr
        (Set.mem_Ico.mpr ⟨div_nonneg (sub_nonneg.mpr h) hstep.le, hx⟩)
    rw [hz]
    rfl

/-- Every successful iteration advances the clock by `step`, the iteration
counter by one, and records exactly one propagate call and one
`log_iteration` entry. -/
theorem run_iteration_ok_counts {σ α : Type} (E : EnvPort σ)
    (agentF : α → Snap → α × ActionRec) (visualize : Bool) (urp : Option ℤ)
    (step : ℚ) (st st' : LoopSt σ α)
    (h : run_iteration E agentF visualize urp step st = Except.ok st') :
    st'.curr_time = st.curr_time + step ∧
    st'.iteration = st.iteration + 1 ∧
    count_propagates st'.trace = count_propagates st.trace + 1 ∧
    count_log_iterations st'.trace = count_log_iterations st.trace + 1 := by
  by_cases hgate : E.get_next_action
      (E.propagate_forward st.env st.curr_time urp) ≤ st.curr_time
  · obtain ⟨h1, h2, h3, h4, tail, htail, htr⟩ :=
      run_iteration_poll E agentF visualize urp step st st' hgate h
    refine ⟨h3, h4, ?_, ?_⟩ <;>
      rcases htail with ht | ht <;> subst ht <;>
      cases hae : (E.act (E.propagate_forward st.env st.curr_time urp)
        (agentF st.agent (E.get_state
          (E.propagate_forward st.env st.curr_time urp))).2).2 <;>
      rw [hae] at htr <;>
      simp [count_propagates, count_log_iterations, htr, List.countP_append,
        List.countP_cons, tail_base, tail_plots, bad_log]
  · obtain ⟨h1, h2, h3, h4, htr⟩ :=
      run_iteration_skip E agentF visualize urp step st st'
        (not_le.mp hgate) h
    refine ⟨h3, h4, ?_, ?_⟩ <;>
      rcases htr with ht | ht <;>
      simp [count_propagates, count_log_iterations, ht, List.countP_append,
        List.countP_cons, tail_base, tail_plots]

/-- With visualization off and enough fuel, the loop runs to completion:
it returns `finished` with the final environment reward, having executed
exactly `expected_iters` iterations (each one a `propagate_forward` call
and one `log_iteration` record) past the initial state. -/
theorem run_loop_finishes {σ α : Type} (E : EnvPort σ)
    (agentF : α → Snap → α × ActionRec) (urp : Option ℤ)
    (end_time step : ℚ) (hstep : 0 < step) :
    ∀ (fuel : ℕ) (st : LoopSt σ α),
      expected_iters st.curr_time end_time step ≤ fuel →
      ∃ fin, run_loop E agentF false urp end_time step fuel st =
          RunResult.finished (E.get_reward fin.env) fin ∧
        fin.iteration =
          st.iteration + expected_iters st.curr_time end_time step ∧
        count_propagates fin.trace =
          count_propagates st.trace +
            expected_iters st.curr_time end_time step ∧
        count_log_iterations fin.trace =
          count_log_iterations st.trace +
            expected_iters st.curr_time end_time step ∧
        end_time < fin.curr_time := by
  intro fuel
  induction fuel with
  | zero =>
    intro st hfuel
    have hguard : ¬ st.curr_time ≤ end_time := by
      intro hc
      have := expected_iters_pos st.curr_time end_time step hstep hc
      omega
    refine ⟨{ st with trace :=
      st.trace ++ [Event.log_protected st.curr_time] }, ?_, ?_, ?_, ?_, ?_⟩
    · rw [run_loop]
      simp [hguard]
    · simp [expected_iters_of_gt _ _ _ hguard]
    · simp [expected_iters_of_gt _ _ _ hguard, count_propagates,
        List.countP_append, List.countP_cons]
    · simp [expected_iters_of_gt _ _ _ hguard, count_log_iterations,
        List.countP_append, List.countP_cons]
    · exact not_le.mp hguard
  | succ fuel ih =>
    intro st hfuel
    by_cases hguard : st.curr_time ≤ end_time
    · obtain ⟨st', hok⟩ := run_iteration_novis E agentF urp step st
      obtain ⟨hc, hi, hp, hl⟩ :=
        run_iteration_ok_counts E agentF false urp step st st' hok
      have hexp := expected_iters_step st.curr_time end_time step hstep hguard
      have hfuel' : expected_iters st'.curr_time end_time step ≤ fuel := by
        rw [hc]
        omega
      obtain ⟨fin, hrun, hfi, hfp, hfl, hfc⟩ := ih st' hfuel'
      refine ⟨fin, ?_, ?_, ?_, ?_, hfc⟩
      · rw [run_loop]
        simp only [hguard, if_true, hok]
        exact hrun
      · rw [hfi, hi, hc] at *
        omega
      · rw [hfp, hp, hc] at *
        omega
      · rw [hfl, hl, hc] at *
        omega
    · refine ⟨{ st with trace :=
        st.trace ++ [Event.log_protected st.curr_time] }, ?_, ?_, ?_, ?_, ?_⟩
      · rw [run_loop]
        simp [hguard]
      · simp [expected_iters_of_gt _ _ _ hguard]
      · simp [expected_iters_of_gt _ _ _ hguard, count_propagates,
          List.countP_append, List.countP_cons]
      · simp [expected_iters_of_gt _ _ _ hguard, count_log_iterations,
          List.countP_append, List.countP_cons]
      · exact not_le.mp hguard

/-- C5 as stated is false: with `start_epoch = 0`, `end_epoch = 1`,
`step = 2` the loop body runs once (the single iteration at epoch 0, after
which the clock jumps to 2 > 1), but `ceil((1 - 0) / 2) + 1 = 2`.  The
claimed `ceil` formula overcounts whenever `(end - start) / step` is not an
integer; the correct count is `floor((end - start) / step) + 1`. -/
theorem c5_counterexample :
    run_loop unitEnv unitAgent false none 1 2 1 st0 =
      RunResult.finished 0
        ⟨(), (), 2, 1,
         [Event.propagate 0, Event.get_state_call,
          Event.get_action_call (default_action 0),
          Event.act_call (default_action 0),
          Event.log_reward_action 0 0 (default_action 0),
          Event.log_iteration 0 0, Event.log_protected 0,
          Event.log_debris 0, Event.log_protected 2], none⟩ ∧
    (⌈((1 : ℚ) - 0) / 2⌉ + 1 : ℤ) = 2 ∧
    (1 : ℕ) ≠ 2 := by
  refine ⟨?_, ?_, by omega⟩
  · norm_num [run_loop, run_iteration, iter_tail, unitEnv, unitAgent, st0,
      tail_base, bad_log, default_action, mkSnap]
  · rw [show (⌈((1 : ℚ) - 0) / 2⌉ : ℤ) = 1 from by
      rw [Int.ceil_eq_iff]
      norm_num]
    norm_num

/-- C5 amended: for `step > 0` and enough fuel the loop terminates in
exactly `floor((end_epoch - start_epoch) / step) + 1` iterations
(`propagate_forward` calls) when `start_epoch <= end_epoch`, the claimed
`ceil((end - start) / step) + 1` form agreeing only when the quotient is an
integer; and once `curr_time` exceeds `end_epoch` the loop never re-enters:
any further `run_loop` call finishes immediately without touching the
body.  At `start = 6599.95`, `end = 6600.05`, `step = 0.0001` this count is
exactly 1001. -/
theorem c5_iteration_count {σ α : Type} (E : EnvPort σ)
    (agentF : α → Snap → α × ActionRec) (urp : Option ℤ)
    (start_time end_time step : ℚ) (env0 : σ) (ag0 : α) (hstep : 0 < step)
    (fuel : ℕ) (hfuel : expected_iters start_time end_time step ≤ fuel) :
    (∃ fin, run_loop E agentF false urp end_time step fuel
        ⟨env0, ag0, start_time, 0, [], none⟩ =
          RunResult.finished (E.get_reward fin.env) fin ∧
      fin.iteration = expected_iters start_time end_time step ∧
      count_propagates fin.trace = expected_iters start_time end_time step ∧
      end_time < fin.curr_time) ∧
    (start_time ≤ end_time →
      expected_iters start_time end_time step =
        (⌊(end_time - start_time) / step⌋ + 1).toNat) ∧
    (∀ (st : LoopSt σ α) (f : ℕ), end_time < st.curr_time →
      run_loop E agentF false urp end_time step f st =
        RunResult.finished (E.get_reward st.env)
          { st with trace :=
              st.trace ++ [Event.log_protected st.curr_time] }) := by
  refine ⟨?_, fun h => expected_iters_of_le _ _ _ h, fun st f h => ?_⟩
  · obtain ⟨fin, hrun, hi, hp, hl, hc⟩ := run_loop_finishes E agentF urp
      end_time step hstep fuel ⟨env0, ag0, start_time, 0, [], none⟩ hfuel
    refine ⟨fin, hrun, ?_, ?_, hc⟩
    · simpa using hi
    · simpa [count_propagates] using hp
  · rw [run_loop.eq_def]
    simp [not_le.mpr h]

/-- Witness for C5 at the spec's concrete example:
`start = 6599.95`, `end = 6600.05`, `step = 0.0001` yields exactly 1001
iterations. -/
theorem c5_witness :
    expected_iters 6599.95 6600.05 0.0001 = 1001 ∧
    ∃ fin, run_loop unitEnv unitAgent false none 6600.05 0.0001 1001
        ⟨(), (), 6599.95, 0, [], none⟩ =
          RunResult.finished (unitEnv.get_reward fin.env) fin ∧
      fin.iteration = 1001 ∧ count_propagates fin.trace = 1001 ∧
      (6600.05 : ℚ) < fin.curr_time := by
  have hexp : expected_iters 6599.95 6600.05 0.0001 = 1001 := by
    rw [expected_iters_of_le _ _ _ (by norm_num)]
    rw [show (⌊((6600.05 : ℚ) - 6599.95) / 0.0001⌋ : ℤ) = 1000 from by
      rw [Int.floor_eq_iff]
      norm_num]
    rfl
  have h := (c5_iteration_count unitEnv unitAgent none 6599.95 6600.05
    0.0001 () () (by norm_num) 1001 (by rw [hexp])).1
  rw [hexp] at h
  exact ⟨hexp, h⟩

/-- C7 as stated is false: constructing a session whose environment
declares `end_time = 0 < 1 = start_time` does not raise — `__init__` has no
validation or failure path and returns the populated record — and the step
is not even a constructor argument (it is passed to `run`).  The true part
survives: for such input no iteration of the loop body ever executes (`run`
exits the loop immediately with the iteration counter at 0). -/
theorem c7_counterexample :
    Simulator.init backwardsEnv () () none false =
      ⟨(), (), 1, 0, 1, false, none⟩ ∧
    Simulator.run backwardsEnv unitAgent
        (Simulator.init backwardsEnv () () none false) 0.001 false 5 =
      RunResult.finished 0 ⟨(), (), 1, 0, [Event.log_protected 1], none⟩ := by
  constructor
  · rfl
  · rw [Simulator.run, run_loop.eq_def]
    norm_num [Simulator.init, backwardsEnv, unitEnv]

/-- C7 amended: construction performs no validation and cannot fail — it
returns the record of copied fields for every input (and `step` is a `run`
parameter, not a construction parameter, so a negative step cannot be
rejected at construction); when `end_epoch < start_epoch` the loop guard
fails on entry and no iteration of the loop body is ever executed: `run`
returns immediately with iteration count 0 and only the post-loop position
log. -/
theorem c7_no_validation {σ α : Type} (E : EnvPort σ) (ag : α) (env : σ)
    (urp : Option ℤ) (p : Bool) (agentF : α → Snap → α × ActionRec)
    (step : ℚ) (fuel : ℕ) :
    Simulator.init E ag env urp p =
      { agent := ag, env := env,
        start_time := E.init_params_start_time env,
        end_time := E.init_params_end_time env,
        curr_time := E.init_params_start_time env,
        print_out := p, update_r_p_step := urp } ∧
    (E.init_params_end_time env < E.init_params_start_time env →
      Simulator.run E agentF (Simulator.init E ag env urp p) step false
          fuel =
        RunResult.finished (E.get_reward env)
          ⟨env, ag, E.init_params_start_time env, 0,
           [Event.log_protected (E.init_params_start_time env)], none⟩) := by
  refine ⟨rfl, fun h => ?_⟩
  rw [Simulator.run, run_loop.eq_def]
  simp [Simulator.init, not_le.mpr h]

/-- Witness for C7 at a concrete input: the backwards environment. -/
theorem c7_witness :
    Simulator.init backwardsEnv () () (some 7) true =
      { agent := (), env := (),
        start_time := backwardsEnv.init_params_start_time (),
        end_time := backwardsEnv.init_params_end_time (),
        curr_time := backwardsEnv.init_params_start_time (),
        print_out := true, update_r_p_step := some 7 } ∧
    Simulator.run backwardsEnv unitAgent
        (Simulator.init backwardsEnv () () (some 7) true) 2 false 3 =
      RunResult.finished (backwardsEnv.get_reward ())
        ⟨(), (), backwardsEnv.init_params_start_time (), 0,
         [Event.log_protected (backwardsEnv.init_params_start_time ())],
         none⟩ :=
  ⟨(c7_no_validation backwardsEnv () () (some 7) true unitAgent 2 3).1,
   (c7_no_validation backwardsEnv () () (some 7) true unitAgent 2 3).2
     (by norm_num [backwardsEnv, unitEnv])⟩

/-- C8: whenever the loop completes, the returned value is exactly the
environment's final reward (`return self.env.get_reward()`), the final
epoch is past `end_time` (the loop exited through the guard), and the
trace ends with exactly one post-loop protected-position log appended after
everything the loop produced. -/
theorem c8_final_reward {σ α : Type} (E : EnvPort σ)
    (agentF : α → Snap → α × ActionRec) (visualize : Bool) (urp : Option ℤ)
    (end_time step : ℚ) :
    ∀ (fuel : ℕ) (st : LoopSt σ α) (r : ℚ) (fin : LoopSt σ α),
      run_loop E agentF visualize urp end_time step fuel st =
        RunResult.finished r fin →
      r = E.get_reward fin.env ∧ end_time < fin.curr_time ∧
      ∃ pre, fin.trace = pre ++ [Event.log_protected fin.curr_time] := by
  intro fuel
  induction fuel with
  | zero =>
    intro st r fin h
    rw [run_loop.eq_def] at h
    by_cases hguard : st.curr_time ≤ end_time
    · simp [hguard] at h
    · simp only [hguard, if_false, RunResult.finished.injEq] at h
      obtain ⟨hr, hfin⟩ := h
      subst hfin
      exact ⟨hr.symm, not_le.mp hguard, st.trace, rfl⟩
  | succ fuel ih =>
    intro st r fin h
    rw [run_loop.eq_def] at h
    by_cases hguard : st.curr_time ≤ end_time
    · simp only [hguard, if_true] at h
      rcases hit : run_iteration E agentF visualize urp step st with e | st'
      · rw [hit] at h
        simp at h
      · rw [hit] at h
        exact ih st' r fin h
    · simp only [hguard, if_false, RunResult.finished.injEq] at h
      obtain ⟨hr, hfin⟩ := h
      subst hfin
      exact ⟨hr.symm, not_le.mp hguard, st.trace, rfl⟩

/-- Witness for C8 at a concrete input: a state already past `end_time`. -/
theorem c8_witness :
    (0 : ℚ) = unitEnv.get_reward (LoopSt.env (σ := Unit) (α := Unit)
      ⟨(), (), 2, 0, [Event.log_protected 2], none⟩) ∧
    (1 : ℚ) < LoopSt.curr_time (σ := Unit) (α := Unit)
      ⟨(), (), 2, 0, [Event.log_protected 2], none⟩ ∧
    ∃ pre, LoopSt.trace (σ := Unit) (α := Unit)
        ⟨(), (), 2, 0, [Event.log_protected 2], none⟩ =
      pre ++ [Event.log_protected (LoopSt.curr_time (σ := Unit) (α := Unit)
        ⟨(), (), 2, 0, [Event.log_protected 2], none⟩)] :=
  c8_final_reward unitEnv unitAgent false none 1 1 0
    ⟨(), (), 2, 0, [], none⟩ 0 ⟨(), (), 2, 0, [Event.log_protected 2], none⟩
    (by rw [run_loop.eq_def]; norm_num [unitEnv])

/-- With visualization on and `update_r_p_step = None`, the tail of the
body reaches `iteration % self.update_r_p_step` and raises TypeError. -/
theorem run_iteration_vis_none {σ α : Type} (E : EnvPort σ)
    (agentF : α → Snap → α × ActionRec) (step : ℚ) (st : LoopSt σ α) :
    run_iteration E agentF true none step st =
      Except.error PyError.typeError := by
  simp only [run_iteration]
  split <;> rfl

/-- With visualization on and `update_r_p_step = 0`, the tail of the body
reaches `iteration % 0` and raises ZeroDivisionError. -/
theorem run_iteration_vis_zero {σ α : Type} (E : EnvPort σ)
    (agentF : α → Snap → α × ActionRec) (step : ℚ) (st : LoopSt σ α) :
    run_iteration E agentF true (some 0) step st =
      Except.error PyError.zeroDivisionError := by
  simp only [run_iteration]
  split <;> simp [iter_tail]

theorem run_loop_vis_none_raises {σ α : Type} (E : EnvPort σ)
    (agentF : α → Snap → α × ActionRec) (end_time step : ℚ) (fuel : ℕ)
    (st : LoopSt σ α) (h : st.curr_time ≤ end_time) :
    run_loop E agentF true none end_time step (fuel + 1) st =
      RunResult.raised PyError.typeError st := by
  rw [run_loop.eq_def]
  simp [h, run_iteration_vis_none]

theorem run_loop_vis_zero_raises {σ α : Type} (E : EnvPort σ)
    (agentF : α → Snap → α × ActionRec) (end_time step : ℚ) (fuel : ℕ)
    (st : LoopSt σ α) (h : st.curr_time ≤ end_time) :
    run_loop E agentF true (some 0) end_time step (fuel + 1) st =
      RunResult.raised PyError.zeroDivisionError st := by
  rw [run_loop.eq_def]
  simp [h, run_iteration_vis_zero]

theorem run_loop_novis_no_raise {σ α : Type} (E : EnvPort σ)
    (agentF : α → Snap → α × ActionRec) (urp : Option ℤ)
    (end_time step : ℚ) :
    ∀ (fuel : ℕ) (st : LoopSt σ α) (e : PyError) (stx : LoopSt σ α),
      run_loop E agentF false urp end_time step fuel st ≠
        RunResult.raised e stx := by
  intro fuel
  induction fuel with
  | zero =>
    intro st e stx h
    rw [run_loop.eq_def] at h
    by_cases hg : st.curr_time ≤ end_time <;> simp [hg] at h
  | succ fuel ih =>
    intro st e stx h
    rw [run_loop.eq_def] at h
    by_cases hg : st.curr_time ≤ end_time
    · simp only [hg, if_true] at h
      obtain ⟨st', hok⟩ := run_iteration_novis E agentF urp step st
      rw [hok] at h
      exact ih st' e stx h
    · simp [hg] at h

/-- C9: a session constructed with `update_r_p_step = None` and run with
`visualize = True` raises TypeError in the very first iteration (the
iteration counter of the raise state is still 0), because the body reaches
`iteration % self.update_r_p_step`; with `update_r_p_step = 0` the same
expression raises ZeroDivisionError, so a visualized run needs a non-zero
integer cadence; a run with `visualize = False` never evaluates the
expression and never raises, for every `update_r_p_step` including
`None`. -/
theorem c9_visualize_precondition {σ α : Type} (E : EnvPort σ) (ag : α)
    (env : σ) (p : Bool) (agentF : α → Snap → α × ActionRec) (step : ℚ)
    (fuel : ℕ) :
    (E.init_params_start_time env ≤ E.init_params_end_time env →
      Simulator.run E agentF (Simulator.init E ag env none p) step true
          (fuel + 1) =
        RunResult.raised PyError.typeError
          ⟨env, ag, E.init_params_start_time env, 0, [],
           some ⟨[E.init_params_start_time env],
                 [E.total_collision_probability env],
                 [E.get_fuel_consumption env], [E.reward env]⟩⟩) ∧
    (E.init_params_start_time env ≤ E.init_params_end_time env →
      Simulator.run E agentF (Simulator.init E ag env (some 0) p) step true
          (fuel + 1) =
        RunResult.raised PyError.zeroDivisionError
          ⟨env, ag, E.init_params_start_time env, 0, [],
           some ⟨[E.init_params_start_time env],
                 [E.total_collision_probability env],
                 [E.get_fuel_consumption env], [E.reward env]⟩⟩) ∧
    (∀ (urp : Option ℤ) (fuel2 : ℕ) (e : PyError) (stx : LoopSt σ α),
      Simulator.run E agentF (Simulator.init E ag env urp p) step false
          fuel2 ≠
        RunResult.raised e stx) := by
  refine ⟨fun h => ?_, fun h => ?_, fun urp fuel2 e stx => ?_⟩
  · rw [Simulator.run]
    exact run_loop_vis_none_raises E agentF _ step fuel _ h
  · rw [Simulator.run]
    exact run_loop_vis_zero_raises E agentF _ step fuel _ h
  · rw [Simulator.run]
    exact run_loop_novis_no_raise E agentF urp _ step fuel2 _ e stx

/-- Witness for C9 at a concrete input: the trivial environment, whose
session spans epochs 0 to 1. -/
theorem c9_witness :
    Simulator.run unitEnv unitAgent (Simulator.init unitEnv () () none false)
        1 true 3 =
      RunResult.raised PyError.typeError
        ⟨(), (), unitEnv.init_params_start_time (), 0, [],
         some ⟨[unitEnv.init_params_start_time ()],
               [unitEnv.total_collision_probability ()],
               [unitEnv.get_fuel_consumption ()],
               [unitEnv.reward ()]⟩⟩ :=
  (c9_visualize_precondition unitEnv () () false unitAgent 1 2).1
    (by norm_num [unitEnv])

end SpaceNav
